import Mathlib

/-!
# Verification of the apitest assertion engine and request pipeline

Shallow embedding of the Go sources of `stephenhillier/apitest`:
the value comparator (`assertions.go`: `checkAssertions`, `equals`, `asFloat`),
the response checker and variable capture (`requests.go`: `checkJSONResponse`,
the post-response part of `request`, `replaceURLVars`), and the orchestrator
(`main.go` / monitor-era `runRequests` and `main`).

Go `interface{}` values decoded from JSON or YAML are modelled by the
inductive `GoVal`.  JSON numbers decode to Go `float64`; a float is
represented here by its canonical Go `%v` rendering (`GoVal.float r`),
which is exactly the string the code feeds to `fmt.Sprintf("%v", ...)`
and `strconv.ParseFloat`.  YAML integers decode to Go `int`
(`GoVal.int`).  Go map iteration order is irrelevant to every result
proved here (only counts and final maps are observed), so Go maps in
the spec data are modelled as association lists.
-/

set_option autoImplicit false
set_option maxRecDepth 8192

namespace Apitest

/-- A dynamically-typed Go value (`interface{}`) as decoded from JSON or YAML:
string, float64 (kept as its canonical `%v` rendering), int, bool, nil,
slice, or string-keyed map. -/
inductive GoVal where
  | str : String → GoVal
  | float : String → GoVal
  | int : Int → GoVal
  | bool : Bool → GoVal
  | null : GoVal
  | arr : List GoVal → GoVal
  | obj : List (String × GoVal) → GoVal

/-- Join a list of strings with single spaces, as Go `fmt` does for
slice and map elements. -/
def joinSpace : List String → String
  | [] => ""
  | [s] => s
  | s :: rest => s ++ " " ++ joinSpace rest

/-- Lexicographic order on character lists (Go compares map keys
byte-wise; identical on the ASCII keys involved here). -/
def charListLe : List Char → List Char → Bool
  | [], _ => true
  | _ :: _, [] => false
  | a :: as, b :: bs => if a = b then charListLe as bs else decide (a < b)

/-- Lexicographic order on strings. -/
def strLe (a b : String) : Bool := charListLe a.data b.data

/-- Insert a (key, rendered value) pair into a list sorted by key. -/
def insertByKey (p : String × String) : List (String × String) → List (String × String)
  | [] => [p]
  | q :: rest => if strLe p.1 q.1 then p :: q :: rest else q :: insertByKey p rest

/-- Sort (key, rendered value) pairs by key, as Go `fmt` sorts map keys
before printing a map. -/
def sortByKey : List (String × String) → List (String × String)
  | [] => []
  | p :: rest => insertByKey p (sortByKey rest)

mutual
/-- `fmt.Sprintf("%v", x)`: the canonical Go string rendering of a value.
Strings render as themselves, float64 as its shortest representation
(carried in the constructor), ints as decimal, bools as `true`/`false`,
a nil interface as `<nil>`, slices as `[a b]`, maps as `map[k:v]` with
keys sorted. -/
def goFmtV : GoVal → String
  | .str s => s
  | .float r => r
  | .int n => toString n
  | .bool b => if b then "true" else "false"
  | .null => "<nil>"
  | .arr xs => "[" ++ joinSpace (goFmtVList xs) ++ "]"
  | .obj kvs => "map[" ++ joinSpace ((sortByKey (goFmtVEntries kvs)).map (fun p => p.1 ++ ":" ++ p.2)) ++ "]"

/-- `%v`-render every element of a slice. -/
def goFmtVList : List GoVal → List String
  | [] => []
  | x :: xs => goFmtV x :: goFmtVList xs

/-- `%v`-render every value of a map, keeping keys. -/
def goFmtVEntries : List (String × GoVal) → List (String × String)
  | [] => []
  | (k, v) :: rest => (k, goFmtV v) :: goFmtVEntries rest
end

mutual
/-- `fmt.Sprintf("%s", x)`: like `%v` for strings, but any non-string
scalar renders through Go's bad-verb format `%!s(type=value)`
(e.g. `fmt.Sprintf("%s", 123) = "%!s(int=123)"`); slices and maps
apply `%s` recursively to their elements. -/
def goFmtS : GoVal → String
  | .str s => s
  | .float r => "%!s(float64=" ++ r ++ ")"
  | .int n => "%!s(int=" ++ toString n ++ ")"
  | .bool b => if b then "%!s(bool=true)" else "%!s(bool=false)"
  | .null => "%!s(<nil>)"
  | .arr xs => "[" ++ joinSpace (goFmtSList xs) ++ "]"
  | .obj kvs => "map[" ++ joinSpace ((sortByKey (goFmtSEntries kvs)).map (fun p => p.1 ++ ":" ++ p.2)) ++ "]"

/-- `%s`-render every element of a slice. -/
def goFmtSList : List GoVal → List String
  | [] => []
  | x :: xs => goFmtS x :: goFmtSList xs

/-- `%s`-render every value of a map, keeping keys. -/
def goFmtSEntries : List (String × GoVal) → List (String × String)
  | [] => []
  | (k, v) :: rest => (k, goFmtS v) :: goFmtSEntries rest
end

/-- `assertions.go` `equals`: two values are equal when their `%v`
string renderings coincide (so `123 == "123"`). -/
def equals (val comparison : GoVal) : Bool :=
  goFmtV val == goFmtV comparison

/-- Numeric value of a list of decimal digit characters. -/
def digitsToNat (cs : List Char) : Nat :=
  cs.foldl (fun a c => 10 * a + (c.toNat - 48)) 0

/-- Split a character list into its leading run of decimal digits and the rest. -/
def spanDigits (cs : List Char) : List Char × List Char :=
  cs.span Char.isDigit

/-- Does `item` contain `sub` as a (possibly empty) contiguous run,
checking each suffix for a prefix match (Go `strings.Contains`)? -/
def matchAt : List Char → List Char → Bool
  | [], _ => true
  | _ :: _, [] => false
  | a :: as, b :: bs => a = b && matchAt as bs

/-- Substring search over character lists. -/
def hasRun (needle : List Char) : List Char → Bool
  | [] => needle.isEmpty
  | c :: rest => matchAt needle (c :: rest) || hasRun needle rest

/-- `strings.Contains(item, sub)`. -/
def strContains (item sub : String) : Bool :=
  hasRun sub.data item.data

/-- `requests.go` `contains`: does some string in the slice contain
`sub` as a substring (used on the `Content-Type` header values)? -/
def contains (s : List String) (sub : String) : Bool :=
  s.any (fun item => strContains item sub)

/-- One segment of a jq-style selector path: an object key or an array index. -/
inductive Seg where
  | key : String → Seg
  | idx : Nat → Seg
deriving DecidableEq

/-- Split a character list on `.` separators. -/
def splitOnDot : List Char → List (List Char)
  | [] => [[]]
  | '.' :: rest => [] :: splitOnDot rest
  | c :: rest =>
    match splitOnDot rest with
    | [] => [[c]]
    | g :: gs => (c :: g) :: gs

/-- Modelled from the spec: one selector segment is either an array
index `[n]` or a plain object key; an empty segment is malformed.
(The selector engine is the external `github.com/savaki/jq` dependency,
absent from `src/`; spec section 4.2 fixes its contract.) -/
def parseSeg (cs : List Char) : Except String Seg :=
  match cs with
  | [] => .error "malformed selector: empty segment"
  | '[' :: rest =>
    let (ds, rest') := spanDigits rest
    if ds ≠ [] ∧ rest' = [']'] then .ok (Seg.idx (digitsToNat ds))
    else .error "malformed selector: bad index segment"
  | _ => .ok (Seg.key (String.mk cs))

/-- Modelled from the spec: `jq.Parse` reads an optionally dot-prefixed,
dot-delimited sequence of keys and `[n]` indices; `.` alone selects the
whole document. -/
def jqParse (s : String) : Except String (List Seg) :=
  let cs := match s.data with
    | '.' :: rest => rest
    | rest => rest
  if cs = [] then .ok []
  else (splitOnDot cs).mapM parseSeg

/-- First value bound to `key` in a decoded JSON object. -/
def lookupEntry : List (String × GoVal) → String → Option GoVal
  | [], _ => none
  | (k, v) :: rest, key => if k = key then some v else lookupEntry rest key

/-- Modelled from the spec: `Op.Apply` walks the decoded document
segment by segment, failing with a not-found error when a key or index
is absent and a type error when a segment meets a non-container. -/
def jqApply : List Seg → GoVal → Except String GoVal
  | [], v => .ok v
  | Seg.key k :: rest, GoVal.obj kvs =>
    match lookupEntry kvs k with
    | some v => jqApply rest v
    | none => .error ("key not found: " ++ k)
  | Seg.idx n :: rest, GoVal.arr xs =>
    match xs[n]? with
    | some v => jqApply rest v
    | none => .error "index out of range"
  | _, _ => .error "type mismatch while walking document"

/-- The leading-dot normalization from `requests.go`: prepend a dot
unless the first character already is one.  Callers must ensure the
selector is non-empty: the Go code indexes `selector[0]` directly. -/
def normalizeSelector (s : String) : String :=
  if s.data.head? = some '.' then s else "." ++ s

/-- `requests.go` `checkJSONResponse` on a decoded response body:
normalize the selector, parse and apply it, then compare the selected
value against the expected one; loose mode compares `%v` renderings,
strict mode compares `%s` renderings.  `none` models the Go panic on
`selector[0]` when the selector is the empty string.  (The source
selects from raw bytes and re-decodes the selected fragment; the body
here is already decoded, so that decode step cannot fail.) -/
def checkJSONResponse (body : GoVal) (selector : String) (expectedValue : GoVal)
    (strict : Bool) : Option (Except String Unit) :=
  if selector = "" then none
  else
    let sel := normalizeSelector selector
    some (match jqParse sel with
      | .error _ => .error ("error processing selector " ++ sel)
      | .ok op =>
        match jqApply op body with
        | .error _ => .error ("error finding value for key selector " ++ sel)
        | .ok value =>
          if strict then
            if goFmtS value = goFmtS expectedValue then .ok ()
            else .error ("expected: " ++ goFmtS expectedValue ++ " received: " ++ goFmtS value)
          else
            if goFmtV value = goFmtV expectedValue then .ok ()
            else .error ("expected: " ++ goFmtV expectedValue ++ " received: " ++ goFmtV value))

/-- The environment's variable map (`env.Vars`), a Go map modelled as an
association list whose lookup sees the most recent binding. -/
def VarMap : Type := List (String × GoVal)

/-- Go map read `vars[k]`. -/
def lookupVar : VarMap → String → Option GoVal
  | [], _ => none
  | (k, v) :: rest, key => if k = key then some v else lookupVar rest key

/-- Go map write `vars[k] = v`: any previous binding for `k` is replaced. -/
def insertVar (vars : VarMap) (k : String) (v : GoVal) : VarMap :=
  (k, v) :: (vars.filter (fun p => p.1 ≠ k) : List (String × GoVal))

/-- An `expect` block: expected status, expected field values, strict flag. -/
structure Expect' where
  status : Int
  values : List (String × GoVal)
  strict : Bool

/-- One `set:` directive: `key` is the source selector (`from:`),
`name` the variable to write (`var:`). -/
structure UserVar' where
  key : String
  name : String

/-- An HTTP response as the checker sees it: status code, the
`Content-Type` header values, and the JSON-decoded body (`none` when
the bytes do not decode). -/
structure HttpResponse where
  status : Int
  contentType : List String
  body : Option GoVal

/-- The status-mismatch failure message of `requests.go`. -/
def statusFailMsg (expected received : Int) : String :=
  "  FAIL expected: " ++ toString expected ++ " received: " ++ toString received

/-- The `expect.Values` loop of `request`: run `checkJSONResponse` for
every field selector and count the failures.  `none` models a panic on
an empty selector; iteration order cannot change the count. -/
def countFailures (body : GoVal) : List (String × GoVal) → Bool → Option Nat
  | [], _ => some 0
  | (k, v) :: rest, strict =>
    match checkJSONResponse body k v strict with
    | none => none
    | some res =>
      (countFailures body rest strict).map
        (fun n => n + match res with | .ok _ => 0 | .error _ => 1)

/-- The `request.SetVars` loop of `request`: for each directive,
normalize and resolve its source selector against the body and write
the result into the variable map; a parse or resolution failure returns
immediately with the variables written so far (the Go map was mutated
in place).  `none` models the panic on an empty selector. -/
def runSetVars : List UserVar' → GoVal → VarMap → Option (Except String Unit × VarMap)
  | [], _, vars => some (.ok (), vars)
  | v :: rest, body, vars =>
    if v.key = "" then none
    else
      let selector := normalizeSelector v.key
      match jqParse selector with
      | .error _ =>
        some (.error ("error setting variable from selector " ++ selector), vars)
      | .ok op =>
        match jqApply op body with
        | .error _ =>
          some (.error ("error finding value for key " ++ selector), vars)
        | .ok value => runSetVars rest body (insertVar vars v.name value)

/-- The post-response part of `requests.go` `request` (lines 116-193):
status check (returning its failure immediately), content-type gate
(returning nil for non-JSON responses), body decode, field-value
checks, `set:` captures, and the final failing-conditions verdict.
Returns the request's error outcome and the resulting variable map;
`none` models a panic on an empty selector. -/
def processResponse (expect : Expect') (setVars : List UserVar') (resp : HttpResponse)
    (vars : VarMap) : Option (Except String Unit × VarMap) :=
  if resp.status ≠ expect.status then
    some (.error (statusFailMsg expect.status resp.status), vars)
  else if !(contains resp.contentType "application/json") then
    some (.ok (), vars)
  else
    match resp.body with
    | none => some (.error "could not decode response body", vars)
    | some body =>
      match countFailures body expect.values expect.strict with
      | none => none
      | some failCount =>
        match runSetVars setVars body vars with
        | none => none
        | some (.error e, vars') => some (.error e, vars')
        | some (.ok _, vars') =>
          if 0 < failCount then
            some (.error ("  " ++ toString failCount ++ " failing conditions"), vars')
          else some (.ok (), vars')

/-- Scan for the closing action delimiter: returns the action body and
the remainder after the two closing braces. -/
def splitAction : List Char → Option (List Char × List Char)
  | [] => none
  | [_] => none
  | c1 :: c2 :: rest =>
    if c1 = '}' ∧ c2 = '}' then some ([], rest)
    else (splitAction (c2 :: rest)).map (fun p => (c1 :: p.1, p.2))

theorem splitAction_length :
    ∀ cs a r, splitAction cs = some (a, r) → r.length < cs.length := by
  intro cs
  induction cs with
  | nil => intro a r h; simp [splitAction] at h
  | cons c1 tl ih =>
    intro a r h
    cases tl with
    | nil => simp [splitAction] at h
    | cons c2 rest =>
      by_cases hc : c1 = '}' ∧ c2 = '}'
      · simp [splitAction, hc] at h
        simp [h.2.symm, List.length_cons]
        omega
      · simp only [splitAction] at h
        rw [if_neg hc] at h
        cases hsp : splitAction (c2 :: rest) with
        | none => rw [hsp] at h; simp at h
        | some p =>
          rw [hsp] at h
          simp at h
          have hlt := ih p.1 p.2 hsp
          rw [← h.2]
          simp only [List.length_cons] at hlt ⊢
          omega

/-- Strip leading and trailing spaces of an action body
(`text/template` ignores space around the field name). -/
def trimSpaces (cs : List Char) : List Char :=
  ((cs.dropWhile (· = ' ')).reverse.dropWhile (· = ' ')).reverse

/-- Modelled from the spec: evaluating one `text/template` action (the
engine is Go's standard library, not part of `src/`).  After the config
loader's rewrite every placeholder is a field action `.name`; a defined
variable renders with `%v`, an undefined one renders as `<no value>`
(the engine's behavior for a missing map key), and any other action
form is rejected as malformed. -/
def evalAction (act : List Char) (vars : VarMap) : Except String (List Char) :=
  match trimSpaces act with
  | '.' :: name =>
    if name = [] then .error "unsupported action"
    else
      match lookupVar vars (String.mk name) with
      | some v => .ok (goFmtV v).data
      | none => .ok "<no value>".data
  | _ => .error "malformed action in template"

/-- Modelled from the spec: `text/template` parse-and-execute over a
character list.  Text outside `\x7b\x7b ... \x7d\x7d` delimiters is
copied verbatim; each delimited action is evaluated with `evalAction`;
an unclosed action is a parse error.  The `fuel` argument only bounds
the recursion (each step consumes at least one input character, so any
`fuel ≥` input length reaches the same result); `renderChars` below
supplies it. -/
def renderFuel (vars : VarMap) : Nat → List Char → Except String (List Char)
  | _, [] => .ok []
  | 0, _ :: _ => .error "template renderer out of fuel"
  | _ + 1, [c] => .ok [c]
  | fuel + 1, c1 :: c2 :: rest =>
    if c1 = '{' ∧ c2 = '{' then
      match splitAction rest with
      | none => .error "template parse error: unclosed action"
      | some (act, rem) =>
        match evalAction act vars with
        | .error e => .error e
        | .ok out => (renderFuel vars fuel rem).map (out ++ ·)
    else
      (renderFuel vars fuel (c2 :: rest)).map (c1 :: ·)

/-- Render a template character list against the variable map. -/
def renderChars (vars : VarMap) (cs : List Char) : Except String (List Char) :=
  renderFuel vars cs.length cs

/-- `requests.go` `replaceURLVars`: run the URL string through the
template engine against the variable map. -/
def replaceURLVars (url : String) (vars : VarMap) : Except String String :=
  match renderChars vars url.data with
  | .error e => .error e
  | .ok out => .ok (String.mk out)

/-- Does the character list contain an opening `\x7b\x7b` delimiter? -/
def hasOpenTag : List Char → Bool
  | [] => false
  | [_] => false
  | c1 :: c2 :: rest => (c1 = '{' && c2 = '{') || hasOpenTag (c2 :: rest)

/-- A request spec as the orchestrator sees it; the fields the
orchestrator itself reads. -/
structure RequestSpec where
  name : String
  url : String
  method : String

/-- The `-t` filter of `runRequests`: run a request when no test name
was given or the names match. -/
def matchesTest (testname : String) (r : RequestSpec) : Bool :=
  testname = "" || testname = r.name

/-- Is a request outcome an error? -/
def isErrOutcome : Except String Unit → Bool
  | .ok _ => false
  | .error _ => true

/-- `main.go` `runRequests` (monitor-era version): iterate the request
list in order, skipping non-matching names, calling `request` for each
and threading the shared environment through; every error becomes a
failure-count increment and the loop always continues.  The HTTP call
itself is abstracted as `oracle`, which consumes and returns the
variable map exactly as `request` mutates `env.Vars` (metrics-counter
calls are I/O and not modelled).  Returns (requests run, failures,
final variables). -/
def runRequests : List RequestSpec → String →
    (RequestSpec → VarMap → Except String Unit × VarMap) → VarMap → Nat × Nat × VarMap
  | [], _, _, vars => (0, 0, vars)
  | r :: rest, testname, oracle, vars =>
    if matchesTest testname r then
      let p := oracle r vars
      let acc := runRequests rest testname oracle p.2
      (acc.1 + 1, acc.2.1 + (if isErrOutcome p.1 then 1 else 0), acc.2.2)
    else runRequests rest testname oracle vars

/-- The per-request outcomes produced along a run, in order. -/
def runTrace : List RequestSpec → String →
    (RequestSpec → VarMap → Except String Unit × VarMap) → VarMap → List (Except String Unit)
  | [], _, _, _ => []
  | r :: rest, testname, oracle, vars =>
    if matchesTest testname r then
      let p := oracle r vars
      p.1 :: runTrace rest testname oracle p.2
    else runTrace rest testname oracle vars

/-- `main`: `log.Fatalf` (exit status 1) when any request failed,
normal exit otherwise. -/
def mainExitCode (failCount : Nat) : Nat :=
  if 0 < failCount then 1 else 0

/-- `main` including config loading: a config error is fatal before any
request runs; otherwise the exit code comes from the failure count. -/
def mainExitOf (cfg : Except String (List RequestSpec)) (testname : String)
    (oracle : RequestSpec → VarMap → Except String Unit × VarMap) (vars : VarMap) : Nat :=
  match cfg with
  | .error _ => 1
  | .ok reqs => mainExitCode (runRequests reqs testname oracle vars).2.1

/-- Evaluation of `checkJSONResponse` once the selector resolves: the
verdict is exactly the comparison of the renderings chosen by the
strict flag. -/
theorem checkJSONResponse_eval (body : GoVal) (sel : String) (expectedValue : GoVal)
    (strict : Bool) (op : List Seg) (a : GoVal)
    (h1 : sel ≠ "") (h2 : jqParse (normalizeSelector sel) = .ok op)
    (h3 : jqApply op body = .ok a) :
    checkJSONResponse body sel expectedValue strict =
      some (if strict then
              (if goFmtS a = goFmtS expectedValue then .ok ()
               else .error ("expected: " ++ goFmtS expectedValue ++ " received: " ++ goFmtS a))
            else
              (if goFmtV a = goFmtV expectedValue then .ok ()
               else .error ("expected: " ++ goFmtV expectedValue ++ " received: " ++ goFmtV a))) := by
  simp only [checkJSONResponse, if_neg h1, h2, h3]

/-- Claim C1: the loose `equals` comparison (strict flag false) succeeds
if and only if the canonical string renderings of the two operands are
equal; in particular the number `123` (as JSON float64 or YAML int)
equals the string `"123"`.  Holds both for the `equals` helper of the
assertion engine and for the loose branch of `checkJSONResponse`. -/
theorem claim1_loose_equals :
    (∀ a b : GoVal, equals a b = true ↔ goFmtV a = goFmtV b)
    ∧ equals (GoVal.int 123) (GoVal.str "123") = true
    ∧ equals (GoVal.float "123") (GoVal.str "123") = true
    ∧ (∀ (body : GoVal) (sel : String) (a b : GoVal) (op : List Seg),
        sel ≠ "" → jqParse (normalizeSelector sel) = .ok op → jqApply op body = .ok a →
        (checkJSONResponse body sel b false = some (.ok ()) ↔ goFmtV a = goFmtV b)) := by
  refine ⟨?_, rfl, rfl, ?_⟩
  · intro a b
    simp [equals]
  · intro body sel a b op h1 h2 h3
    rw [checkJSONResponse_eval body sel b false op a h1 h2 h3]
    by_cases h : goFmtV a = goFmtV b
    · simp [h]
    · simp [h]

/-- Witness for C1 at a concrete response: selecting `k` from a body
holding the JSON number `123` loosely equals the string `"123"`. -/
theorem claim1_loose_equals_witness :
    checkJSONResponse (GoVal.obj [("k", GoVal.float "123")]) "k" (GoVal.str "123") false
      = some (.ok ()) :=
  (claim1_loose_equals.2.2.2 (GoVal.obj [("k", GoVal.float "123")]) "k"
    (GoVal.float "123") (GoVal.str "123") [Seg.key "k"] (by decide) rfl rfl).mpr rfl

/-- Counterexample to C3 as stated: strict `equals` is not exactly
"matching underlying type and value" — the string operand
`%!s(int=123)` (the `%s` bad-verb rendering of the int `123`) compares
strictly equal to the int `123` although the types differ. -/
theorem claim3_counterexample :
    checkJSONResponse (GoVal.obj [("k", GoVal.str "%!s(int=123)")]) "k" (GoVal.int 123) true
      = some (.ok ()) := rfl

/-- Claim C3 (amended): the strict branch of `checkJSONResponse`
succeeds iff the `%s`-format renderings of the two values are equal.
Matching type and value is sufficient, and a number is never strictly
equal to the string with the same digits (the `%s` rendering of a
float64 or int is 13 resp. 9 characters longer than the bare digit
string), but distinct types can collide when a string operand spells
out the `%s` bad-verb rendering of the other operand. -/
theorem claim3_strict_equals :
    (∀ (body : GoVal) (sel : String) (a b : GoVal) (op : List Seg),
        sel ≠ "" → jqParse (normalizeSelector sel) = .ok op → jqApply op body = .ok a →
        (checkJSONResponse body sel b true = some (.ok ()) ↔ goFmtS a = goFmtS b))
    ∧ (∀ r : String, goFmtS (GoVal.float r) ≠ goFmtS (GoVal.str r))
    ∧ (∀ n : Int, goFmtS (GoVal.int n) ≠ goFmtS (GoVal.str (toString n))) := by
  refine ⟨?_, ?_, ?_⟩
  · intro body sel a b op h1 h2 h3
    rw [checkJSONResponse_eval body sel b true op a h1 h2 h3]
    by_cases h : goFmtS a = goFmtS b
    · simp [h]
    · simp [h]
  · intro r h
    have := congrArg String.length h
    simp [goFmtS, String.length_append] at this
    have e1 : "%!s(float64=".length = 12 := rfl
    have e2 : ")".length = 1 := rfl
    rw [e1, e2] at this
    omega
  · intro n h
    have := congrArg String.length h
    simp [goFmtS, String.length_append] at this
    have e1 : "%!s(int=".length = 8 := rfl
    have e2 : ")".length = 1 := rfl
    rw [e1, e2] at this
    omega

/-- Witness for C3 (amended) at a concrete response: the float64 `123`
is not strictly equal to the string `"123"`. -/
theorem claim3_strict_equals_witness :
    checkJSONResponse (GoVal.obj [("k", GoVal.float "123")]) "k" (GoVal.str "123") true
      ≠ some (.ok ()) := by
  have h := (claim3_strict_equals.1 (GoVal.obj [("k", GoVal.float "123")]) "k"
    (GoVal.float "123") (GoVal.str "123") [Seg.key "k"] (by decide) rfl rfl)
  intro hc
  exact claim3_strict_equals.2.1 "123" (h.mp hc)

/-- Counterexample to C2 as stated: on a status mismatch the checker
returns at once with only the status failure and the variable map
untouched, although the expectation carries a field selector and the
`set:` directive would have resolved (second conjunct) — so field
checks and captures are not evaluated after a status mismatch. -/
theorem claim2_counterexample :
    processResponse ⟨200, [("id", GoVal.float "1")], false⟩ [⟨"id", "created"⟩]
        ⟨404, ["application/json"], some (GoVal.obj [("id", GoVal.float "1")])⟩ []
      = some (.error (statusFailMsg 200 404), [])
    ∧ runSetVars [⟨"id", "created"⟩] (GoVal.obj [("id", GoVal.float "1")]) []
      = some (.ok (), [("created", GoVal.float "1")]) :=
  ⟨rfl, rfl⟩

/-- Claim C2 (amended): a mismatch between the actual and expected HTTP
status short-circuits the whole check: the request returns immediately
with the status failure, and neither field-value checks nor
set-variable captures are evaluated (the variable map is returned
unchanged). -/
theorem claim2_amended (expect : Expect') (setVars : List UserVar') (resp : HttpResponse)
    (vars : VarMap) (h : resp.status ≠ expect.status) :
    processResponse expect setVars resp vars
      = some (.error (statusFailMsg expect.status resp.status), vars) := by
  simp [processResponse, h]

/-- Witness for C2 (amended): a 404 against an expected 200 yields the
status failure with the variables unchanged. -/
theorem claim2_amended_witness :
    processResponse ⟨200, [("foo", GoVal.str "bar")], false⟩ [⟨"foo", "x"⟩]
        ⟨404, ["application/json"], some (GoVal.obj [("foo", GoVal.str "bar")])⟩ []
      = some (.error (statusFailMsg 200 404), []) :=
  claim2_amended ⟨200, [("foo", GoVal.str "bar")], false⟩ [⟨"foo", "x"⟩]
    ⟨404, ["application/json"], some (GoVal.obj [("foo", GoVal.str "bar")])⟩ [] (by decide)

/-- Claim C5: a leading dot in a selector is optional (normalization
makes the dotted and undotted spellings identical), a bare key indexes
a flat object, a dotted path walks nested objects, and a missing key
fails with a not-found error instead of yielding a value. -/
theorem claim5_path_selector :
    (∀ (c : Char) (cs : List Char), c ≠ '.' →
        normalizeSelector (String.mk (c :: cs)) = normalizeSelector ("." ++ String.mk (c :: cs)))
    ∧ jqParse (normalizeSelector "foo") = .ok [Seg.key "foo"]
    ∧ jqApply [Seg.key "foo"] (GoVal.obj [("foo", GoVal.str "bar")]) = .ok (GoVal.str "bar")
    ∧ jqParse (normalizeSelector "foo.bar") = .ok [Seg.key "foo", Seg.key "bar"]
    ∧ jqApply [Seg.key "foo", Seg.key "bar"]
        (GoVal.obj [("foo", GoVal.obj [("bar", GoVal.str "baz")])]) = .ok (GoVal.str "baz")
    ∧ jqApply [Seg.key "qux"] (GoVal.obj [("foo", GoVal.str "bar")])
        = .error "key not found: qux" := by
  refine ⟨?_, rfl, rfl, rfl, rfl, rfl⟩
  intro c cs hc
  have hdat : ("." ++ String.mk (c :: cs)).data = '.' :: c :: cs := by
    rw [String.data_append]
    rfl
  simp only [normalizeSelector, hdat]
  have h1 : (String.mk (c :: cs)).data.head? = some c := rfl
  rw [h1]
  simp [hc]

/-- Witness for C5: `foo` and `.foo` normalize to the same selector. -/
theorem claim5_path_selector_witness :
    normalizeSelector (String.mk ['f', 'o', 'o'])
      = normalizeSelector ("." ++ String.mk ['f', 'o', 'o']) :=
  claim5_path_selector.1 'f' ['o', 'o'] (by decide)

/-- Counterexample to C6 as stated: for a non-JSON content type with a
matching status, the request returns nil (success) even though the
expectation carries a field check — no `NonJSONResponseError` is
raised. -/
theorem claim6_counterexample :
    processResponse ⟨200, [("foo", GoVal.str "bar")], false⟩ []
        ⟨200, ["text/plain"], none⟩ [] = some (.ok (), []) := rfl

/-- Claim C6 (amended): when the response's `Content-Type` does not
contain `application/json`, all field-value checks and captures are
skipped and the outcome is decided by the status check alone — the
request passes silently when the status matches, even if field checks
were requested. -/
theorem claim6_amended (expect : Expect') (setVars : List UserVar') (resp : HttpResponse)
    (vars : VarMap) (hct : contains resp.contentType "application/json" = false)
    (hst : resp.status = expect.status) :
    processResponse expect setVars resp vars = some (.ok (), vars) := by
  simp [processResponse, hst, hct]

/-- Witness for C6 (amended) at a concrete `text/plain` response with a
requested field check and a capture directive. -/
theorem claim6_amended_witness :
    processResponse ⟨200, [("foo", GoVal.str "bar")], false⟩ [⟨"foo", "x"⟩]
        ⟨200, ["text/plain"], none⟩ [] = some (.ok (), []) :=
  claim6_amended ⟨200, [("foo", GoVal.str "bar")], false⟩ [⟨"foo", "x"⟩]
    ⟨200, ["text/plain"], none⟩ [] (by decide) rfl

/-- Claim C7: a `set:` directive whose selector resolves writes the
resolved value into the variable map under the target name, overwriting
any prior binding, and processing continues with the next directive; a
directive whose selector fails to resolve returns the capture error at
once, aborting the remaining directives with the map as written so far;
and the capture loop runs after the assertion checks — assertion
failures do not prevent captures, whose resulting map is the one
returned. -/
theorem claim7_capture :
    (∀ (body : GoVal) (vars : VarMap) (sel tgt : String) (rest : List UserVar')
        (op : List Seg) (val : GoVal),
        sel ≠ "" → jqParse (normalizeSelector sel) = .ok op → jqApply op body = .ok val →
        runSetVars (⟨sel, tgt⟩ :: rest) body vars = runSetVars rest body (insertVar vars tgt val))
    ∧ (∀ (vars : VarMap) (tgt : String) (val : GoVal),
        lookupVar (insertVar vars tgt val) tgt = some val)
    ∧ (∀ (body : GoVal) (vars : VarMap) (sel tgt : String) (rest : List UserVar')
        (op : List Seg) (e : String),
        sel ≠ "" → jqParse (normalizeSelector sel) = .ok op → jqApply op body = .error e →
        runSetVars (⟨sel, tgt⟩ :: rest) body vars
          = some (.error ("error finding value for key " ++ normalizeSelector sel), vars))
    ∧ (∀ (expect : Expect') (setVars : List UserVar') (resp : HttpResponse)
        (vars vars' : VarMap) (body : GoVal) (failCount : Nat),
        resp.status = expect.status → contains resp.contentType "application/json" = true →
        resp.body = some body →
        countFailures body expect.values expect.strict = some failCount →
        runSetVars setVars body vars = some (.ok (), vars') →
        processResponse expect setVars resp vars
          = some ((if 0 < failCount then
                .error ("  " ++ toString failCount ++ " failing conditions")
              else .ok ()), vars')) := by
  refine ⟨?_, ?_, ?_, ?_⟩
  · intro body vars sel tgt rest op val h1 h2 h3
    simp only [runSetVars, if_neg h1, h2, h3]
  · intro vars tgt val
    simp [insertVar, lookupVar]
  · intro body vars sel tgt rest op e h1 h2 h3
    simp only [runSetVars, if_neg h1, h2, h3]
  · intro expect setVars resp vars vars' body failCount hst hct hbody hcount hrun
    simp [processResponse, hst, hct, hbody, hcount, hrun]
    by_cases hfc : 0 < failCount <;> simp [hfc]

/-- Witness for C7: capturing `id` into `created` overwrites a stale
binding and continues; a dangling selector aborts with the capture
error; and with one failing assertion the checker still returns the
captured map together with the failing-conditions error. -/
theorem claim7_capture_witness :
    runSetVars [⟨"id", "created"⟩] (GoVal.obj [("id", GoVal.float "7")])
        [("created", GoVal.str "stale")]
      = runSetVars [] (GoVal.obj [("id", GoVal.float "7")])
          (insertVar [("created", GoVal.str "stale")] "created" (GoVal.float "7"))
    ∧ lookupVar (insertVar [("created", GoVal.str "stale")] "created" (GoVal.float "7")) "created"
      = some (GoVal.float "7")
    ∧ runSetVars [⟨"missing", "x"⟩, ⟨"id", "y"⟩] (GoVal.obj [("id", GoVal.float "7")]) []
      = some (.error "error finding value for key .missing", [])
    ∧ processResponse ⟨200, [("id", GoVal.str "8")], false⟩ [⟨"id", "created"⟩]
        ⟨200, ["application/json"], some (GoVal.obj [("id", GoVal.float "7")])⟩ []
      = some (.error "  1 failing conditions", [("created", GoVal.float "7")]) := by
  refine ⟨?_, ?_, ?_, ?_⟩
  · exact claim7_capture.1 (GoVal.obj [("id", GoVal.float "7")])
      [("created", GoVal.str "stale")] "id" "created" [] [Seg.key "id"] (GoVal.float "7")
      (by decide) rfl rfl
  · exact claim7_capture.2.1 [("created", GoVal.str "stale")] "created" (GoVal.float "7")
  · exact claim7_capture.2.2.1 (GoVal.obj [("id", GoVal.float "7")]) [] "missing" "x"
      [⟨"id", "y"⟩] [Seg.key "missing"] "key not found: missing" (by decide) rfl rfl
  · exact claim7_capture.2.2.2 ⟨200, [("id", GoVal.str "8")], false⟩ [⟨"id", "created"⟩]
      ⟨200, ["application/json"], some (GoVal.obj [("id", GoVal.float "7")])⟩ []
      [("created", GoVal.float "7")] (GoVal.obj [("id", GoVal.float "7")]) 1
      rfl rfl rfl rfl rfl

/-- Joint characterization of `runRequests` and `runTrace`: the run
visits exactly the requests matching the filter, in order, and the
failure count is that of the error outcomes along the trace. -/
theorem runRequests_counts (testname : String)
    (oracle : RequestSpec → VarMap → Except String Unit × VarMap) :
    ∀ (reqs : List RequestSpec) (vars : VarMap),
    (runRequests reqs testname oracle vars).1 = (reqs.filter (matchesTest testname)).length
    ∧ (runRequests reqs testname oracle vars).2.1
        = ((runTrace reqs testname oracle vars).filter isErrOutcome).length
    ∧ (runTrace reqs testname oracle vars).length
        = (reqs.filter (matchesTest testname)).length := by
  intro reqs
  induction reqs with
  | nil => intro vars; simp [runRequests, runTrace]
  | cons r rest ih =>
    intro vars
    by_cases h : matchesTest testname r
    · obtain ⟨ih1, ih2, ih3⟩ := ih (oracle r vars).2
      refine ⟨?_, ?_, ?_⟩
      · simp [runRequests, h, ih1]
      · simp only [runRequests, runTrace, if_pos h]
        by_cases he : isErrOutcome (oracle r vars).1
        · simp [he, ih2]
        · simp [he, ih2]
      · simp [runTrace, h, ih3]
    · obtain ⟨ih1, ih2, ih3⟩ := ih vars
      refine ⟨?_, ?_, ?_⟩
      · simp [runRequests, h, ih1]
      · simp [runRequests, runTrace, h, ih2]
      · simp [runTrace, h, ih3]

/-- Claim C8: the orchestrator converts every per-request error into a
failure-count increment and visits every matching request (the totals
equal the filtered list's length for every oracle, including
always-failing ones), the trace has one outcome per visited request
with the failure count counting exactly its errors, the process exit
status is nonzero exactly when at least one request failed, and a
configuration error exits nonzero before any request runs. -/
theorem claim8_orchestrator (reqs : List RequestSpec) (testname : String)
    (oracle : RequestSpec → VarMap → Except String Unit × VarMap) (vars : VarMap) :
    (runRequests reqs testname oracle vars).1 = (reqs.filter (matchesTest testname)).length
    ∧ (runRequests reqs testname oracle vars).2.1
        = ((runTrace reqs testname oracle vars).filter isErrOutcome).length
    ∧ (runTrace reqs testname oracle vars).length
        = (reqs.filter (matchesTest testname)).length
    ∧ (mainExitOf (.ok reqs) testname oracle vars ≠ 0
        ↔ 0 < (runRequests reqs testname oracle vars).2.1)
    ∧ (∀ e : String, mainExitOf (.error e) testname oracle vars = 1) := by
  obtain ⟨h1, h2, h3⟩ := runRequests_counts testname oracle reqs vars
  refine ⟨h1, h2, h3, ?_, fun _ => rfl⟩
  simp only [mainExitOf, mainExitCode]
  by_cases hf : 0 < (runRequests reqs testname oracle vars).2.1 <;> simp [hf]

/-- Lemma for C9: a template with no opening delimiter renders to
itself whenever the fuel covers the input. -/
theorem renderFuel_no_tag (vars : VarMap) :
    ∀ (cs : List Char) (fuel : Nat), hasOpenTag cs = false → cs.length ≤ fuel →
      renderFuel vars fuel cs = .ok cs := by
  intro cs
  induction cs with
  | nil => intro fuel _ _; cases fuel <;> rfl
  | cons c1 tl ih =>
    intro fuel h hle
    cases fuel with
    | zero => simp at hle
    | succ f =>
      cases tl with
      | nil => rfl
      | cons c2 rest =>
        simp only [hasOpenTag, Bool.or_eq_false_iff] at h
        have hne : ¬(c1 = '{' ∧ c2 = '{') := by
          intro hcc
          simp [hcc.1, hcc.2] at h
        have hrec := ih f h.2 (by simp at hle ⊢; omega)
        simp only [renderFuel, if_neg hne, hrec]
        rfl

/-- Claim C9: variable substitution is the identity on any template
string containing no opening placeholder delimiter: `replaceURLVars`
returns the string unchanged with no error, for every variable map. -/
theorem claim9_substitution_identity (s : String) (vars : VarMap)
    (h : hasOpenTag s.data = false) :
    replaceURLVars s vars = .ok s := by
  unfold replaceURLVars renderChars
  rw [renderFuel_no_tag vars s.data s.data.length h (Nat.le_refl _)]

/-- Witness for C9 on a concrete placeholder-free URL. -/
theorem claim9_substitution_identity_witness :
    replaceURLVars "http://example.com/api/v1/todos" [("host", GoVal.str "x")]
      = .ok "http://example.com/api/v1/todos" :=
  claim9_substitution_identity "http://example.com/api/v1/todos"
    [("host", GoVal.str "x")] (by decide)

/-- Claim C10: the leading-dot normalization reads the selector's first
character before any other validation, so the field-check and capture
paths are total exactly when every selector is non-empty: on the empty
selector both paths panic (`none`) and return no error value, while any
non-empty selector always yields some result. -/
theorem claim10_empty_selector_panic :
    (∀ (body expectedValue : GoVal) (strict : Bool),
        checkJSONResponse body "" expectedValue strict = none)
    ∧ (∀ (body : GoVal) (vars : VarMap) (tgt : String) (rest : List UserVar'),
        runSetVars (⟨"", tgt⟩ :: rest) body vars = none)
    ∧ (∀ (sel : String), sel ≠ "" → ∀ (body expectedValue : GoVal) (strict : Bool),
        (checkJSONResponse body sel expectedValue strict).isSome = true)
    ∧ (∀ (values : List (String × GoVal)) (body : GoVal) (strict : Bool),
        (∀ p ∈ values, p.1 ≠ "") → (countFailures body values strict).isSome = true)
    ∧ (∀ (svs : List UserVar') (body : GoVal) (vars : VarMap),
        (∀ v ∈ svs, v.key ≠ "") → (runSetVars svs body vars).isSome = true) := by
  have hsome : ∀ (sel : String), sel ≠ "" → ∀ (body expectedValue : GoVal) (strict : Bool),
      (checkJSONResponse body sel expectedValue strict).isSome = true := by
    intro sel hne body expectedValue strict
    simp only [checkJSONResponse, if_neg hne, Option.isSome_some]
  have hrun : ∀ (svs : List UserVar') (body : GoVal) (vars : VarMap),
      (∀ v ∈ svs, v.key ≠ "") → (runSetVars svs body vars).isSome = true := by
    intro svs body
    induction svs with
    | nil => intro vars _; rfl
    | cons v rest ih =>
      intro vars hkeys
      have hv : v.key ≠ "" := hkeys v (List.mem_cons_self v rest)
      cases hpar : jqParse (normalizeSelector v.key) with
      | error e => simp only [runSetVars, if_neg hv, hpar]; rfl
      | ok op =>
        cases hap : jqApply op body with
        | error e => simp only [runSetVars, if_neg hv, hpar, hap]; rfl
        | ok val =>
          simp only [runSetVars, if_neg hv, hpar, hap]
          exact ih (insertVar vars v.name val) (fun w hw => hkeys w (List.mem_cons_of_mem v hw))
  refine ⟨?_, ?_, hsome, ?_, hrun⟩
  · intro body expectedValue strict
    rfl
  · intro body vars tgt rest
    rfl
  · intro values body strict
    induction values with
    | nil => intro _; rfl
    | cons p rest ih =>
      intro hkeys
      have hp : p.1 ≠ "" := hkeys p (List.mem_cons_self p rest)
      have h1 := hsome p.1 hp body p.2 strict
      simp only [countFailures]
      cases hc : checkJSONResponse body p.1 p.2 strict with
      | none => rw [hc] at h1; simp at h1
      | some res =>
        have h2 := ih (fun w hw => hkeys w (List.mem_cons_of_mem p hw))
        cases hcf : countFailures body rest strict with
        | none => rw [hcf] at h2; simp at h2
        | some n => rfl

/-- Witness for C10: the empty selector panics on both paths, while the
non-empty selector `k` always produces a result. -/
theorem claim10_empty_selector_panic_witness :
    checkJSONResponse (GoVal.obj []) "" GoVal.null false = none
    ∧ runSetVars [⟨"", "x"⟩] (GoVal.obj []) [] = none
    ∧ (checkJSONResponse (GoVal.obj []) "k" GoVal.null false).isSome = true
    ∧ (countFailures (GoVal.obj []) [("k", GoVal.null)] false).isSome = true
    ∧ (runSetVars [⟨"k", "x"⟩] (GoVal.obj []) []).isSome = true := by
  refine ⟨?_, ?_, ?_, ?_, ?_⟩
  · exact claim10_empty_selector_panic.1 (GoVal.obj []) GoVal.null false
  · exact claim10_empty_selector_panic.2.1 (GoVal.obj []) [] "x" []
  · exact claim10_empty_selector_panic.2.2.1 "k" (by decide) (GoVal.obj []) GoVal.null false
  · exact claim10_empty_selector_panic.2.2.2.1 [("k", GoVal.null)] (GoVal.obj []) false
      (by intro p hp; simp at hp; subst hp; decide)
  · exact claim10_empty_selector_panic.2.2.2.2 [⟨"k", "x"⟩] (GoVal.obj []) []
      (by intro v hv; simp at hv; subst hv; decide)

end Apitest
